import Mathlib

/-!
Verification of the resumable batch-geocoding pipeline
(`geocode_vworld_smart.py`, `geocode_vworld_daily.py`, `geocode_vworld.py`,
`merge_daily_backups.py`, `fix_and_recover.py`).

Addresses are modelled as Lean `String`s (Python `str`, sequences of Unicode
code points; Python `len` = number of code points = `String.length`).  The
text-scanning primitives below are fuel-indexed translations of the Python
regex substitutions and scans used by the scripts; the fuel is always the
input length, which over-approximates the number of scanning steps, so the
fuel is never exhausted on the arguments the wrappers pass.
-/

namespace Geo

/-- Python `\s` whitespace class restricted to the ASCII whitespace characters
(` `, tab, newline, carriage return, vertical tab, form feed). -/
def isSpaceChar (c : Char) : Bool :=
  c = ' ' || c = '\t' || c = '\n' || c = '\r' || c = '\x0b' || c = '\x0c'

/-- The Korean syllable block `가`..`힣` used by the regex class `[가-힣]`. -/
def isHangul (c : Char) : Bool :=
  0xAC00 ≤ c.toNat && c.toNat ≤ 0xD7A3

/-- Python `str.strip()` on a list of characters. -/
def pyStripL (l : List Char) : List Char :=
  ((l.dropWhile isSpaceChar).reverse.dropWhile isSpaceChar).reverse

/-- Python `str.strip()`. -/
def pyStrip (s : String) : String :=
  String.mk (pyStripL s.data)

/-- Python `str.replace(pat, rep)`: replace every non-overlapping occurrence of
`pat`, scanning left to right.  `fuel` bounds the number of scan steps. -/
def replaceAllAux : Nat → List Char → List Char → List Char → List Char
  | 0, _, _, l => l
  | _ + 1, _, _, [] => []
  | fuel + 1, pat, rep, c :: rest =>
    if !pat.isEmpty && pat.isPrefixOf (c :: rest) then
      rep ++ replaceAllAux fuel pat rep ((c :: rest).drop pat.length)
    else
      c :: replaceAllAux fuel pat rep rest

/-- Python `str.replace` wrapper with fuel = input length. -/
def replaceAll (pat rep l : List Char) : List Char :=
  replaceAllAux l.length pat rep l

/-- `re.sub(r'\(open[^close]*close\)', '', s)` for a matching delimiter pair:
each opening delimiter together with everything up to the first closing
delimiter is removed; an opening delimiter with no later closing delimiter is
kept. -/
def removeDelimAux : Nat → Char → Char → List Char → List Char
  | 0, _, _, l => l
  | _ + 1, _, _, [] => []
  | fuel + 1, o, cl, x :: rest =>
    if x = o then
      match rest.findIdx? (· = cl) with
      | some k => removeDelimAux fuel o cl (rest.drop (k + 1))
      | none => x :: removeDelimAux fuel o cl rest
    else
      x :: removeDelimAux fuel o cl rest

/-- Delimited-content removal wrapper with fuel = input length. -/
def removeDelim (o cl : Char) (l : List Char) : List Char :=
  removeDelimAux l.length o cl l

/-- Length of the leftmost match of `\s+\d+(-\d+)?(\s|$)` at the head of `l`,
with Python's greedy/backtracking semantics, or `none` if there is no match
starting here. -/
def matchNoNumLen (l : List Char) : Option Nat :=
  let w := (l.takeWhile isSpaceChar).length
  if w = 0 then none else
  let l1 := l.drop w
  let d := (l1.takeWhile Char.isDigit).length
  if d = 0 then none else
  let l2 := l1.drop d
  match l2 with
  | '-' :: l3 =>
    let d2 := (l3.takeWhile Char.isDigit).length
    if d2 = 0 then none
    else
      match l3.drop d2 with
      | [] => some (w + d + 1 + d2)
      | c :: _ => if isSpaceChar c then some (w + d + 1 + d2 + 1) else none
  | [] => some (w + d)
  | c :: _ => if isSpaceChar c then some (w + d + 1) else none

/-- `re.sub(r'\s+\d+(-\d+)?(\s|$)', ' ', s)`: each match is replaced by a
single space, scanning left to right and resuming after the match. -/
def subNoNumAux : Nat → List Char → List Char
  | 0, l => l
  | _ + 1, [] => []
  | fuel + 1, c :: rest =>
    match matchNoNumLen (c :: rest) with
    | some n =>
      if n = 0 then c :: subNoNumAux fuel rest
      else ' ' :: subNoNumAux fuel ((c :: rest).drop n)
    | none => c :: subNoNumAux fuel rest

/-- Building-number removal wrapper with fuel = input length. -/
def subNoNum (l : List Char) : List Char :=
  subNoNumAux l.length l

/-- `re.sub(r'\s+', ' ', s)`: collapse every maximal whitespace run into a
single space. -/
def collapseWsAux : Nat → List Char → List Char
  | 0, l => l
  | _ + 1, [] => []
  | fuel + 1, c :: rest =>
    if isSpaceChar c then ' ' :: collapseWsAux fuel (rest.dropWhile isSpaceChar)
    else c :: collapseWsAux fuel rest

/-- Whitespace-collapse wrapper with fuel = input length. -/
def collapseWs (l : List Char) : List Char :=
  collapseWsAux l.length l

/-- `re.sub(r'([가-힣])(\d)', r'\1 \2', s)`: insert a space between a Korean
syllable and an immediately following digit; scanning resumes after each
match. -/
def hangulDigitSpace : List Char → List Char
  | [] => []
  | [c] => [c]
  | a :: b :: rest =>
    if isHangul a && b.isDigit then a :: ' ' :: b :: hangulDigitSpace rest
    else a :: hangulDigitSpace (b :: rest)

/-- The noise-keyword vocabulary of `clean_address`, in source order. -/
def noiseKeywords : List String :=
  ["완속충전기", "급속충전기", "충전기", "충전소",
   "주차장", "지하주차장", "옥외주차장",
   "입구", "앞", "옆", "뒤", "뒤편", "맞은편", "건너편",
   "우측", "좌측", "방면", "방향", "인근", "근처",
   "1층", "2층", "지하", "B1", "B2", "층"]

/-- The administrative-region rename table of `clean_address`, in source
order. -/
def regionRenames : List (String × String) :=
  [("강원특별자치도", "강원도"), ("전북특별자치도", "전라북도"),
   ("전남특별자치도", "전라남도"), ("제주특별자치도", "제주도")]

/-- The misspelling / superseded-road-name correction table of
`clean_address`, in source (insertion) order. -/
def corrections : List (String × String) :=
  [("홍덕구", "흥덕구"), ("원롱면", "월롱면"), ("원삭로", "원당로"),
   ("송백로로", "송백로"), ("달성군 현풍면", "달성군 현풍읍"),
   ("예천군 호명면", "예천군 호명읍"), ("현풍동로", "현풍중앙로"),
   ("현풍서로", "현풍중앙로"), ("도청대로", "충효로"),
   ("행복로", "충효로"), ("청석로", "경충대로"),
   ("수타사로", "수타사길"), ("덕풍로", "삼척로")]

/-- The transformation pipeline of `VWorldGeocoder.clean_address` applied to
an already-stripped address: parenthetical and bracketed content removal,
noise-keyword removal, region renames, corrections, Korean-digit spacing,
whitespace collapsing and final strip. -/
def cleanCore (addr : List Char) : List Char :=
  let a1 := removeDelim '(' ')' addr
  let a2 := removeDelim '[' ']' a1
  let a3 := noiseKeywords.foldl (fun acc kw => replaceAll kw.data [' '] acc) a2
  let a4 := regionRenames.foldl (fun acc p => replaceAll p.1.data p.2.data acc) a3
  let a5 := corrections.foldl (fun acc p => replaceAll p.1.data p.2.data acc) a4
  let a6 := hangulDigitSpace a5
  pyStripL (collapseWs a6)

/-- `VWorldGeocoder.clean_address` (identical in all three geocoder scripts).
`none` models a missing (`NaN`) value; blank input yields the empty string;
the function is total, so it cannot raise. -/
def clean_address (address : Option String) : String :=
  match address with
  | none => ""
  | some s =>
    if pyStripL s.data = [] then ""
    else String.mk (cleanCore (pyStripL s.data))

/-- The regex character class `[시도군구]`. -/
def isSiDoGunGu (c : Char) : Bool :=
  c = '시' || c = '도' || c = '군' || c = '구'

/-- The regex character class `[읍면동]`. -/
def isEupMyeonDong (c : Char) : Bool :=
  c = '읍' || c = '면' || c = '동'

/-- The regex character class `[읍면동리]`. -/
def isEupMyeonDongRi (c : Char) : Bool :=
  c = '읍' || c = '면' || c = '동' || c = '리'

/-- The regex character class `[로길대로가]` (as a set: `로`, `길`, `대`,
`가`). -/
def isRoadSuffix (c : Char) : Bool :=
  c = '로' || c = '길' || c = '대' || c = '가'

/-- The regex character class `[시군구]`. -/
def isSiGunGu (c : Char) : Bool :=
  c = '시' || c = '군' || c = '구'

/-- `true` iff position `i` of `l` exists and satisfies `p`. -/
def tst (p : Char → Bool) (l : List Char) (i : Nat) : Bool :=
  match l.get? i with
  | some c => p c
  | none => false

/-- Smallest index `k ≥ m` of `l` whose character satisfies `p`. -/
def firstIdxFrom (l : List Char) (m : Nat) (p : Char → Bool) : Option Nat :=
  (List.range l.length).find? (fun k => decide (m ≤ k) && tst p l k)

/-- Length of the maximal whitespace run of `l` starting at position `i`. -/
def wsRunLen (l : List Char) (i : Nat) : Nat :=
  ((l.drop i).takeWhile isSpaceChar).length

/-- The descending list `[w, w-1, ..., 0]` (greedy quantifier trial order). -/
def descToZero (w : Nat) : List Nat :=
  (List.range (w + 1)).reverse

/-- `re.match(r'(.+?[시군구])', address)`: the lazy `.+?` makes the group end
at the first `[시군구]` character at index ≥ 1; the group is the prefix up to
and including it. -/
def sigunguMatch (l : List Char) : Option (List Char) :=
  (((List.range l.length).drop 1).find? (fun i => tst isSiGunGu l i)).map
    (fun i => l.take (i + 1))

/-- Backtracking search for the tail `\s+.+?[읍면동리]` of the `dong_match`
regex after the `[시도군구]` character at index `i`: the greedy `\s+` is tried
longest-first and the lazy `.+?` shortest-first, exactly as Python's engine
does; returns the index of the `[읍면동리]` character. -/
def dongInner (l : List Char) (i : Nat) : Option Nat :=
  let L := wsRunLen l (i + 1)
  if L = 0 then none
  else
    ((List.range L).map (fun d => L - d)).findSome? (fun len =>
      firstIdxFrom l (i + len + 2) isEupMyeonDongRi)

/-- `re.match(r'(.+?[시도군구]\s+.+?[읍면동리])', address)`: returns
`group(1)`, if any. -/
def dongMatch (l : List Char) : Option (List Char) :=
  ((List.range l.length).drop 1).findSome? (fun i =>
    if tst isSiDoGunGu l i then (dongInner l i).map (fun k => l.take (k + 1))
    else none)

/-- The final `.+?[로길대로가]` of the `road_match` regex starting at position
`t`: the lazy `.+?` consumes at least one character, so the match ends at the
first `[로길대로가]` character at index ≥ `t + 1`. -/
def roadTail (l : List Char) (t : Nat) : Option Nat :=
  firstIdxFrom l (t + 1) isRoadSuffix

/-- The `\s*.+?[로길대로가]` part of the `road_match` regex starting at
position `q`: the greedy `\s*` is tried longest-first. -/
def roadAfterOpt (l : List Char) (q : Nat) : Option Nat :=
  (descToZero (wsRunLen l q)).findSome? (fun len => roadTail l (q + len))

/-- The `[읍면동]?\s*.+?[로길대로가]` part of the `road_match` regex starting
at position `q`: the greedy `[읍면동]?` first tries to consume one character. -/
def roadAfterMid (l : List Char) (q : Nat) : Option Nat :=
  if tst isEupMyeonDong l q then
    match roadAfterOpt l (q + 1) with
    | some k => some k
    | none => roadAfterOpt l q
  else roadAfterOpt l q

/-- The tail `\s+.+?[읍면동]?\s*.+?[로길대로가]` of the `road_match` regex
after the `[시도군구]` character at index `i`: `\s+` greedy longest-first,
then the lazy `.+?` shortest-first (its end position `q` ascending). -/
def roadInner (l : List Char) (i : Nat) : Option Nat :=
  let L := wsRunLen l (i + 1)
  if L = 0 then none
  else
    ((List.range L).map (fun d => L - d)).findSome? (fun len =>
      (List.range l.length).findSome? (fun q =>
        if i + len + 2 ≤ q then roadAfterMid l q else none))

/-- `re.match(r'(.+?[시도군구]\s+.+?[읍면동]?\s*.+?[로길대로가])\s*', address)`:
returns `group(1)`, if any (the trailing `\s*` lies outside the group). -/
def roadMatch (l : List Char) : Option (List Char) :=
  ((List.range l.length).drop 1).findSome? (fun i =>
    if tst isSiDoGunGu l i then (roadInner l i).map (fun k => l.take (k + 1))
    else none)

/-- `re.sub(r'\s+\d+(-\d+)?(\s|$)', ' ', address).strip()` on `String`s: the
`no_number` candidate of `extract_address_candidates`. -/
def noNumberOf (address : String) : String :=
  String.mk (pyStripL (subNoNum address.data))

/-- `road_match.group(1).strip()` on `String`s. -/
def roadOnlyOf (address : String) : Option String :=
  (roadMatch address.data).map (fun g => String.mk (pyStripL g))

/-- `dong_match.group(1).strip()` on `String`s. -/
def dongOnlyOf (address : String) : Option String :=
  (dongMatch address.data).map (fun g => String.mk (pyStripL g))

/-- `sigungu_match.group(1).strip()` on `String`s. -/
def sigunguOnlyOf (address : String) : Option String :=
  (sigunguMatch address.data).map (fun g => String.mk (pyStripL g))

/-- Level 2 of `extract_address_candidates`: append the building-number-free
form when it differs from the original address and is longer than 5. -/
def appendNoNumber (address : String) (candidates : List String) : List String :=
  if noNumberOf address ≠ address ∧ 5 < (noNumberOf address).length then
    candidates ++ [noNumberOf address]
  else candidates

/-- Level 3 of `extract_address_candidates`: append the road-only truncation
when it matched, is not already among the candidates, and is longer than 5. -/
def appendRoadOnly (address : String) (candidates : List String) : List String :=
  match roadOnlyOf address with
  | some road_only =>
    if road_only ∉ candidates ∧ 5 < road_only.length then candidates ++ [road_only]
    else candidates
  | none => candidates

/-- Level 4 of `extract_address_candidates`: append the neighborhood-level
truncation when it matched, is new, and is longer than 5. -/
def appendDongOnly (address : String) (candidates : List String) : List String :=
  match dongOnlyOf address with
  | some dong_only =>
    if dong_only ∉ candidates ∧ 5 < dong_only.length then candidates ++ [dong_only]
    else candidates
  | none => candidates

/-- Level 5 of `extract_address_candidates` (only in `geocode_vworld.py`):
append the district-level truncation when it matched, is new, and is longer
than 3. -/
def appendSigunguOnly (address : String) (candidates : List String) : List String :=
  match sigunguOnlyOf address with
  | some sigungu_only =>
    if sigungu_only ∉ candidates ∧ 3 < sigungu_only.length then
      candidates ++ [sigungu_only]
    else candidates
  | none => candidates

/-- `VWorldGeocoder.extract_address_candidates` of `geocode_vworld.py`
(five levels: original, no building number, road-only, neighborhood-only,
district-only, each appended under its guard in source order). -/
def extract_address_candidates (address : String) : List String :=
  appendSigunguOnly address
    (appendDongOnly address (appendRoadOnly address (appendNoNumber address [address])))

/-- `VWorldGeocoder.extract_address_candidates` of `geocode_vworld_smart.py`
and `geocode_vworld_daily.py` (four levels: no district-only fallback). -/
def extract_address_candidates_smart (address : String) : List String :=
  appendDongOnly address (appendRoadOnly address (appendNoNumber address [address]))

/-- Shallow JSON values for the geocoding service response.  Numeric fields
are modelled by `num` over `Rat` (the scripts convert them with `float`,
whose rounding is irrelevant to the claims considered here). -/
inductive Json where
  | null : Json
  | str : String → Json
  | num : Rat → Json
  | obj : List (String × Json) → Json
  | arr : List Json → Json

/-- Outcome of `requests.get`: either a raised timeout / transport exception,
or an HTTP response with a status code and a body (`none` models a body on
which `response.json()` raises). -/
inductive NetResult where
  | exn : NetResult
  | resp : Nat → Option Json → NetResult

/-- Python `float(v)` on a JSON value, as the scripts use it: succeeds exactly
on numeric values. -/
def jsonNum : Json → Option Rat
  | .num q => some q
  | _ => none

/-- `d.get(k, default)` / `d[k]` field lookup on a JSON object; `none` for a
missing key (and the callers below treat a non-object receiver as the raised
`AttributeError` / `TypeError` the scripts catch). -/
def jField : Json → String → Option Json
  | .obj fields, k => List.lookup k fields
  | _, _ => none

/-- `status == 'OK'` where `status = res.get('status')` (`none` is Python
`None`). -/
def statusIsOK : Option Json → Bool
  | some (.str s) => s = "OK"
  | _ => false

/-- The response interpretation of `VWorldGeocoder._try_geocode` (identical in
all three geocoder scripts): status code 200, top-level `status == 'OK'`, a
dict `result` containing `point`, and numeric `point['x']` (longitude) and
`point['y']` (latitude) yield `(lat, lon, 'success')`; every other shape —
including every exception the `try` block catches — yields
`(None, None, 'failed')`. -/
def respInterp (nr : NetResult) : Option Rat × Option Rat × String :=
  match nr with
  | .exn => (none, none, "failed")
  | .resp code body =>
    if code = 200 then
      match body with
      | none => (none, none, "failed")
      | some data =>
        match data with
        | .obj fields =>
          let res := (List.lookup "response" fields).getD (.obj [])
          match res with
          | .obj rfields =>
            let status := List.lookup "status" rfields
            let result := (List.lookup "result" rfields).getD (.obj [])
            if statusIsOK status then
              match result with
              | .obj resFields =>
                match List.lookup "point" resFields with
                | some pt =>
                  match pt with
                  | .obj ptFields =>
                    match List.lookup "x" ptFields with
                    | some xj =>
                      match jsonNum xj with
                      | some lon =>
                        match List.lookup "y" ptFields with
                        | some yj =>
                          match jsonNum yj with
                          | some lat => (some lat, some lon, "success")
                          | none => (none, none, "failed")
                        | none => (none, none, "failed")
                      | none => (none, none, "failed")
                    | none => (none, none, "failed")
                  | _ => (none, none, "failed")
                | none => (none, none, "failed")
              | _ => (none, none, "failed")
            else (none, none, "failed")
          | _ => (none, none, "failed")
        | _ => (none, none, "failed")
    else (none, none, "failed")

/-- The success condition of the spec, written from its words: "the HTTP
response has OK status 200, a top-level status field equal to 'OK', and a
nested point object, with latitude taken from the point's 'y' field and
longitude from its 'x' field".  Returns `(lat, lon)` when it holds. -/
def specSuccess (nr : NetResult) : Option (Rat × Rat) :=
  match nr with
  | .exn => none
  | .resp code body =>
    if code = 200 then
      body.bind fun d =>
        (jField d "response").bind fun res =>
          match jField res "status" with
          | some (.str s) =>
            if s = "OK" then
              (jField res "result").bind fun r =>
                (jField r "point").bind fun p =>
                  (jField p "x").bind fun xj =>
                    (jField p "y").bind fun yj =>
                      (jsonNum xj).bind fun lon =>
                        (jsonNum yj).map fun lat => (lat, lon)
            else none
          | _ => none
    else none

/-- Per-run geocoder state: the request counter `today_count` and the list of
HTTP attempts issued so far (each `requests.get` call, whether or not it
raised, appends its `(address, type)` pair). -/
structure GSt where
  count : Nat
  log : List (String × String)
deriving DecidableEq

/-- The counter increment of `_try_geocode`: `self.today_count += 1` runs
after `requests.get` returns, so a raised timeout / transport exception skips
it. -/
def reqIncrement : NetResult → Nat
  | .exn => 0
  | .resp _ _ => 1

/-- `VWorldGeocoder._try_geocode`: issues one HTTP attempt, increments the
counter iff a response object came back, and interprets the response. -/
def tryGeocode (net : String → String → NetResult) (addr ty : String)
    (st : GSt) : (Option Rat × Option Rat × String) × GSt :=
  let nr := net addr ty
  (respInterp nr,
    { count := st.count + reqIncrement nr, log := st.log ++ [(addr, ty)] })

/-- The `addresses_to_try` list of `geocode_address`: the road address first
(when present, truthy, and cleaning to length > 3), then the parcel address
under the same condition. -/
def buildAttempts (road jibun : Option String) : List (String × String) :=
  (match road with
   | some a =>
     if a ≠ "" ∧ clean_address (some a) ≠ "" ∧ 3 < (clean_address (some a)).length
     then [(clean_address (some a), "road")]
     else []
   | none => []) ++
  (match jibun with
   | some a =>
     if a ≠ "" ∧ clean_address (some a) ≠ "" ∧ 3 < (clean_address (some a)).length
     then [(clean_address (some a), "parcel")]
     else []
   | none => [])

/-- The inner candidate loop of `geocode_address`: skip candidates shorter
than 3 characters, call `_try_geocode` on the others, and stop at the first
`'success'`.  Returns `some` of the successful triple, or `none` when the
whole ladder failed. -/
def runCandidates (net : String → String → NetResult) (ty : String) :
    List String → GSt → Option (Option Rat × Option Rat × String) × GSt
  | [], st => (none, st)
  | c :: rest, st =>
    if c.length < 3 then runCandidates net ty rest st
    else
      let (r, st1) := tryGeocode net c ty st
      if r.2.2 = "success" then (some r, st1)
      else runCandidates net ty rest st1

/-- The outer loop of `geocode_address` over `addresses_to_try`, generating
each address's candidate ladder with the four-level
`extract_address_candidates` of the smart / daily scripts. -/
def runAttempts (net : String → String → NetResult) :
    List (String × String) → GSt → Option (Option Rat × Option Rat × String) × GSt
  | [], st => (none, st)
  | (a, ty) :: rest, st =>
    match runCandidates net ty (extract_address_candidates_smart a) st with
    | (some r, st1) => (some r, st1)
    | (none, st1) => runAttempts net rest st1

/-- `VWorldGeocoder.geocode_address` of `geocode_vworld_smart.py` /
`geocode_vworld_daily.py`: a `'limit_reached'` guard on entry, `'empty'` when
no address qualifies, otherwise the first successful candidate wins and
`'failed'` is returned only after every candidate of every qualified address
failed. -/
def geocode_address (net : String → String → NetResult)
    (road jibun : Option String) (limit : Nat) (st : GSt) :
    (Option Rat × Option Rat × String) × GSt :=
  if limit ≤ st.count then ((none, none, "limit_reached"), st)
  else
    let toTry := buildAttempts road jibun
    if toTry = [] then ((none, none, "empty"), st)
    else
      match runAttempts net toTry st with
      | (some r, st1) => (r, st1)
      | (none, st1) => ((none, none, "failed"), st1)

/-- Declarative view of one attempt: `some` of the `_try_geocode` triple when
it reports `'success'`, else `none`. -/
def attemptTriple (net : String → String → NetResult)
    (ct : String × String) : Option (Option Rat × Option Rat × String) :=
  let r := respInterp (net ct.1 ct.2)
  if r.2.2 = "success" then some r else none

/-- The flattened, ordered list of candidate attempts a `geocode_address`
call can issue: each qualified address's candidate ladder (without the
too-short candidates), road address first. -/
def flatCandidates (road jibun : Option String) : List (String × String) :=
  (buildAttempts road jibun).flatMap (fun p =>
    ((extract_address_candidates_smart p.1).filter
      (fun c => !(c.length < 3))).map (fun c => (c, p.2)))

/-- The prefix of an attempt list actually issued: everything up to and
including the first successful attempt, or the whole list when none
succeeds. -/
def attemptsMade (net : String → String → NetResult) :
    List (String × String) → List (String × String)
  | [] => []
  | ct :: rest =>
    if (attemptTriple net ct).isSome then [ct]
    else ct :: attemptsMade net rest

/-- One row of the progress snapshot: the immutable input addresses (`주소`,
`지번 주소`) and the mutable output columns (`위도`, `경도`, `처리상태`,
`처리일시`).  Timestamps are abstracted to `Nat`. -/
structure Row where
  road : Option String
  jibun : Option String
  lat : Option Rat
  lon : Option Rat
  status : String
  ts : Option Nat
deriving DecidableEq

/-- Default row used for out-of-range reads (never reached by the loops,
which only index inside the snapshot). -/
def rowDefault : Row :=
  { road := none, jibun := none, lat := none, lon := none, status := "",
    ts := none }

/-- State of one batch run: the in-memory snapshot, the geocoder's request
counter, a per-row log of the HTTP attempts issued (row index paired with its
attempt list), the snapshots persisted so far, and whether the run stopped
through the daily-limit break. -/
structure BSt where
  rows : List Row
  count : Nat
  log : List (Nat × List (String × String))
  saves : List (List Row)
  stopped : Bool
deriving DecidableEq

/-- `df[df['처리상태'] == 'pending'].index` of `geocode_vworld_smart.py`:
the indices selected for processing, computed once from the initial
snapshot. -/
def pendingIndices (rows : List Row) : List Nat :=
  (List.range rows.length).filter
    (fun i => (rows.getD i rowDefault).status == "pending")

/-- Processing of one row (shared by the smart and daily loops): resolve the
row's addresses, write back coordinates, status and timestamp, log the
attempts, and persist the snapshot when the counter is a multiple of 1000. -/
def processRow (net : String → String → NetResult) (limit now : Nat)
    (i : Nat) (st : BSt) : BSt :=
  let row := st.rows.getD i rowDefault
  let r := geocode_address net row.road row.jibun limit
    { count := st.count, log := [] }
  let newRow :=
    { row with lat := r.1.1, lon := r.1.2.1, status := r.1.2.2, ts := some now }
  let rows1 := st.rows.set i newRow
  { rows := rows1, count := r.2.count, log := st.log ++ [(i, r.2.log)],
    saves := if r.2.count % 1000 = 0 then st.saves ++ [rows1] else st.saves,
    stopped := st.stopped }

/-- The row loop of `geocode_vworld_smart.py` `main`: iterate over the
pre-selected indices, breaking when the counter has reached the remaining
daily limit. -/
def batchLoop (net : String → String → NetResult) (limit now : Nat) :
    List Nat → BSt → BSt
  | [], st => st
  | i :: rest, st =>
    if limit ≤ st.count then { st with stopped := true }
    else batchLoop net limit now rest (processRow net limit now i st)

/-- A whole run of `geocode_vworld_smart.py` `main` on an in-memory snapshot:
select the pending rows, run the loop, then always persist the final
snapshot (`save_progress_safe(df, progress_file)` after the loop). -/
def runSmart (net : String → String → NetResult) (limit now : Nat)
    (rows : List Row) : BSt :=
  let st := batchLoop net limit now (pendingIndices rows)
    { rows := rows, count := 0, log := [], saves := [], stopped := false }
  { st with saves := st.saves ++ [st.rows] }

/-- The row loop of `geocode_vworld_daily.py` `main`: iterate over *all* row
indices, skipping only rows whose status is already `'success'`; rows with
status `'failed'` (or any other non-success status) are re-submitted. -/
def dailyLoop (net : String → String → NetResult) (limit now : Nat) :
    List Nat → BSt → BSt
  | [], st => st
  | i :: rest, st =>
    if (st.rows.getD i rowDefault).status == "success" then
      dailyLoop net limit now rest st
    else if limit ≤ st.count then { st with stopped := true }
    else dailyLoop net limit now rest (processRow net limit now i st)

/-- A whole run of `geocode_vworld_daily.py` `main` on an in-memory snapshot,
with the final `save_progress_safe` flush. -/
def runDaily (net : String → String → NetResult) (limit now : Nat)
    (rows : List Row) : BSt :=
  let st := dailyLoop net limit now (List.range rows.length)
    { rows := rows, count := 0, log := [], saves := [], stopped := false }
  { st with saves := st.saves ++ [st.rows] }

/-- Number of rows whose status is `'success'`. -/
def countSuccess (rows : List Row) : Nat :=
  rows.countP (fun r => r.status == "success")

/-- The non-clobbering merge loop of `merge_daily_backups.py` (and of
`fix_and_recover.py`, choice 3): for every secondary row with both
coordinates present, copy it into the primary at the same index (setting
status `'success'` and the secondary's timestamp) only when that index is in
range and the primary's latitude there is still absent. -/
def merge_daily_backups (primary secondary : List Row) : List Row :=
  (List.range secondary.length).foldl (fun acc idx =>
    let srow := secondary.getD idx rowDefault
    if srow.lat.isSome && srow.lon.isSome then
      if idx < acc.length then
        if (acc.getD idx rowDefault).lat = none then
          acc.set idx
            { acc.getD idx rowDefault with
              lat := srow.lat, lon := srow.lon, status := "success",
              ts := srow.ts }
        else acc
      else acc
    else acc) primary

/-- Contents of the three file names `save_progress_safe` touches
(`progress.csv.tmp`, `progress.csv`, `progress.csv.backup`); `none` means the
file does not exist. -/
structure FSState where
  temp : Option String
  live : Option String
  backup : Option String
deriving DecidableEq

/-- The sequence of filesystem states visited by `save_progress_safe`
(identical in `geocode_vworld_smart.py` and `geocode_vworld_daily.py`):
write the whole snapshot to the temp file (`tempMid` is an arbitrary
partially-written temp content observable if the process crashes during
`df.to_csv`), then — only when the live file exists — copy it to the backup
suffix (`backupMid` likewise an arbitrary partial copy), then atomically
replace the live file with the temp file (`shutil.move` within a directory is
a rename).  The last state is the post-save state; every earlier state is a
possible crash point. -/
def save_progress_safe_states (fs : FSState) (content tempMid backupMid : String) :
    List FSState :=
  [fs,
   { fs with temp := some tempMid },
   { fs with temp := some content }] ++
  (if fs.live.isSome then
    [{ fs with temp := some content, backup := some backupMid },
     { fs with temp := some content, backup := fs.live }]
   else []) ++
  [{ temp := none, live := some content,
     backup := if fs.live.isSome then fs.live else fs.backup }]

/-- Invariant of the first four candidate-ladder stages: nonempty, headed by
the original address, duplicate-free, and every derived candidate longer
than 5. -/
def StagedP (a : String) (l : List String) : Prop :=
  l ≠ [] ∧ l.head? = some a ∧ l.Nodup ∧ ∀ c ∈ l.tail, 5 < c.length

/-- The candidate ladder of one address, paired with its address type, with
the too-short (< 3 characters) candidates dropped: exactly the attempts the
inner loop of `geocode_address` can issue for that address. -/
def candPairs (ty : String) (cands : List String) : List (String × String) :=
  (cands.filter (fun c => !(c.length < 3))).map (fun c => (c, ty))

/-- A concrete row already marked `'failed'`. -/
def failedRow : Row :=
  { road := some "가나다라마바", jibun := none, lat := none, lon := none,
    status := "failed", ts := none }

/-- A concrete row already marked `'success'`. -/
def successRow : Row :=
  { road := none, jibun := none, lat := some 37, lon := some 127,
    status := "success", ts := some 1 }

/-- A network oracle on which every request raises (timeout / transport
error). -/
def exnNet : String → String → NetResult := fun _ _ => .exn

/-- Claim C9: `clean_address` is a total Lean function (hence deterministic
and exception-free); it returns the empty string for missing (`none`) or
blank input, and on the concrete address
`"강원특별자치도 원롱면 충전기 앞 (지상)"` it yields the
parenthetical-stripped, noise-free, whitespace-collapsed string with
`강원특별자치도` replaced by `강원도` and `원롱면` by `월롱면`, namely
`"강원도 월롱면"`. -/
theorem normalize_total_and_example :
    clean_address none = "" ∧
    (∀ s : String, pyStrip s = "" → clean_address (some s) = "") ∧
    clean_address (some "강원특별자치도 원롱면 충전기 앞 (지상)") = "강원도 월롱면" := by
  refine ⟨rfl, ?_, by decide⟩
  intro s h
  have h2 : pyStripL s.data = [] := congrArg String.data h
  simp [clean_address, h2]

/-- Witness for C9: the blank-input case evaluated at the concrete blank
string `"  "`. -/
theorem normalize_total_and_example_witness :
    pyStrip "  " = "" ∧ clean_address (some "  ") = "" :=
  ⟨by decide, normalize_total_and_example.2.1 "  " (by decide)⟩

/-- Claim C3: along the state sequence of `save_progress_safe` — temp-file
write, backup copy of the live file (when present), atomic replace — every
crash point strictly before the final replace leaves the live file exactly as
it was before the save (so never missing or truncated relative to its
pre-save content), and the final state has the live file equal to the full
new snapshot. -/
theorem save_progress_safe_atomic :
    ∀ (fs : FSState) (content tempMid backupMid : String),
      (∀ s ∈ (save_progress_safe_states fs content tempMid backupMid).dropLast,
        s.live = fs.live) ∧
      (save_progress_safe_states fs content tempMid backupMid).getLast? =
        some { temp := none, live := some content,
               backup := if fs.live.isSome then fs.live else fs.backup } := by
  intro fs content tempMid backupMid
  rcases hfs : fs.live with _ | v
  · constructor
    · intro s hs
      simp [save_progress_safe_states, hfs, List.dropLast] at hs
      rcases hs with rfl | rfl | rfl <;> simp [hfs]
    · simp [save_progress_safe_states, hfs, List.dropLast]
  · constructor
    · intro s hs
      simp [save_progress_safe_states, hfs, List.dropLast] at hs
      rcases hs with rfl | rfl | rfl | rfl | rfl <;> simp [hfs]
    · simp [save_progress_safe_states, hfs, List.dropLast]

/-- Witness for C3: the crash point just after the temp-file write, on a
concrete filesystem with live content `"old"`, still shows live content
`"old"`. -/
theorem save_progress_safe_atomic_witness :
    ({ temp := some "mid", live := some "old", backup := none } : FSState).live =
      ({ temp := none, live := some "old", backup := none } : FSState).live :=
  (save_progress_safe_atomic ⟨none, some "old", none⟩ "new" "mid" "bmid").1 _
    (by decide)

/-- Claim C7 (amended): `_try_geocode` always issues exactly one HTTP attempt,
but increments the request counter by one only when `requests.get` returns a
response (success, not-found, or non-OK status); when the request raises — a
timeout or transport error — the increment, which sits after the call, is
skipped and the counter is unchanged. -/
theorem tryGeocode_counter :
    ∀ (net : String → String → NetResult) (addr ty : String) (st : GSt),
      (tryGeocode net addr ty st).2.count = st.count + reqIncrement (net addr ty) ∧
      (tryGeocode net addr ty st).2.log = st.log ++ [(addr, ty)] :=
  fun _ _ _ _ => ⟨rfl, rfl⟩

/-- Counterexample for C7 as stated: on a timeout / transport error the
counter is *not* incremented — here a concrete call whose request raises
leaves the counter at 0 instead of 1. -/
theorem tryGeocode_counter_cex :
    (tryGeocode exnNet "서울" "road" { count := 0, log := [] }).2.count ≠ 0 + 1 := by
  decide

/-- Claim C2: when the request counter has reached the configured quota, the
smart runner's row loop stops through the limit break before touching the
next pending row — the whole run state (snapshot rows, counter, attempt log,
saved snapshots) is unchanged except for the `stopped` flag, so the row's
status remains `'pending'` and no network call is made — and every run
persists its final snapshot (the last saved snapshot is the final row
state). -/
theorem quota_boundary :
    (∀ (net : String → String → NetResult) (limit now : Nat) (st : BSt)
       (i : Nat) (rest : List Nat), st.count = limit →
      batchLoop net limit now (i :: rest) st = { st with stopped := true }) ∧
    (∀ (net : String → String → NetResult) (limit now : Nat) (rows : List Row),
      (runSmart net limit now rows).saves.getLast? =
        some (runSmart net limit now rows).rows) := by
  constructor
  · intro net limit now st i rest h
    simp [batchLoop, h]
  · intro net limit now rows
    simp [runSmart]

/-- Witness for C2: a concrete run state whose counter equals the quota: the
loop stops immediately, leaving the single pending row untouched. -/
theorem quota_boundary_witness :
    batchLoop exnNet 2 0 [0]
      { rows := [{ road := some "서울", jibun := none, lat := none, lon := none,
                   status := "pending", ts := none }],
        count := 2, log := [], saves := [], stopped := false } =
      { rows := [{ road := some "서울", jibun := none, lat := none, lon := none,
                   status := "pending", ts := none }],
        count := 2, log := [], saves := [], stopped := true } :=
  quota_boundary.1 exnNet 2 0 _ 0 [] rfl

theorem getD_set_ne (l : List Row) (i j : Nat) (a : Row) (h : i ≠ j) :
    (l.set i a).getD j rowDefault = l.getD j rowDefault := by
  induction l generalizing i j with
  | nil => simp
  | cons hd tl ih =>
    cases i with
    | zero =>
      cases j with
      | zero => exact absurd rfl h
      | succ j => simp [List.getD]
    | succ i =>
      cases j with
      | zero => simp [List.getD]
      | succ j =>
        simp only [List.set, List.getD_cons_succ]
        exact ih i j (fun hc => h (by rw [hc]))

/-- Invariant carried through the merge fold: the length is preserved and
every row either is the primary's row or the primary's latitude there was
absent. -/
theorem merge_fold_invariant (primary : List Row) (secondary : List Row) :
    ∀ (idxs : List Nat) (acc : List Row),
      acc.length = primary.length →
      (∀ i, acc.getD i rowDefault = primary.getD i rowDefault ∨
        ((primary.getD i rowDefault).lat = none ∧ i < primary.length)) →
      (idxs.foldl (fun acc idx =>
        let srow := secondary.getD idx rowDefault
        if srow.lat.isSome && srow.lon.isSome then
          if idx < acc.length then
            if (acc.getD idx rowDefault).lat = none then
              acc.set idx
                { acc.getD idx rowDefault with
                  lat := srow.lat, lon := srow.lon, status := "success",
                  ts := srow.ts }
            else acc
          else acc
        else acc) acc).length = primary.length ∧
      (∀ i, (idxs.foldl (fun acc idx =>
        let srow := secondary.getD idx rowDefault
        if srow.lat.isSome && srow.lon.isSome then
          if idx < acc.length then
            if (acc.getD idx rowDefault).lat = none then
              acc.set idx
                { acc.getD idx rowDefault with
                  lat := srow.lat, lon := srow.lon, status := "success",
                  ts := srow.ts }
            else acc
          else acc
        else acc) acc).getD i rowDefault = primary.getD i rowDefault ∨
        ((primary.getD i rowDefault).lat = none ∧ i < primary.length)) := by
  intro idxs
  induction idxs with
  | nil => exact fun acc h1 h2 => ⟨h1, h2⟩
  | cons idx rest ih =>
    intro acc h1 h2
    simp only [List.foldl_cons]
    set srow := secondary.getD idx rowDefault with hsrow
    by_cases hco : (srow.lat.isSome && srow.lon.isSome) = true
    · simp only [hco, if_true]
      by_cases hin : idx < acc.length
      · simp only [hin, if_true]
        by_cases hlat : (acc.getD idx rowDefault).lat = none
        · simp only [hlat, if_true]
          apply ih
          · rw [List.length_set, h1]
          · intro i
            by_cases hij : idx = i
            · subst hij
              right
              constructor
              · rcases h2 idx with h | h
                · rw [← h]; exact hlat
                · exact h.1
              · omega
            · rw [getD_set_ne _ _ _ _ hij]
              exact h2 i
        · simp only [hlat, if_false]
          exact ih acc h1 h2
      · simp only [hin, if_false]
        exact ih acc h1 h2
    · simp only [hco, if_false]
      exact ih acc h1 h2

/-- Claim C4: the reconciliation merge never overwrites a row that already
has coordinates: a primary row whose latitude is present is returned
unchanged (coordinates, status, timestamp); any row the merge changes had no
latitude in the primary and lies inside the primary's bounds (out-of-range
secondary indices are skipped); and the merged snapshot has exactly the
primary's length. -/
theorem reconcile_no_clobber :
    ∀ (primary secondary : List Row),
      (∀ i, (primary.getD i rowDefault).lat ≠ none →
        (merge_daily_backups primary secondary).getD i rowDefault =
          primary.getD i rowDefault) ∧
      (∀ i, (merge_daily_backups primary secondary).getD i rowDefault ≠
          primary.getD i rowDefault →
        (primary.getD i rowDefault).lat = none ∧ i < primary.length) ∧
      (merge_daily_backups primary secondary).length = primary.length := by
  intro primary secondary
  have h := merge_fold_invariant primary secondary (List.range secondary.length)
    primary rfl (fun i => Or.inl rfl)
  refine ⟨?_, ?_, h.1⟩
  · intro i hlat
    rcases h.2 i with heq | hnone
    · exact heq
    · exact absurd hnone.1 hlat
  · intro i hne
    rcases h.2 i with heq | hnone
    · exact absurd heq hne
    · exact hnone

/-- Witness for C4: a concrete primary snapshot whose row 0 is a success with
coordinates (37, 127); merging a secondary with different coordinates (1, 2)
at row 0 leaves row 0 unchanged. -/
theorem reconcile_no_clobber_witness :
    (merge_daily_backups
        [{ road := none, jibun := none, lat := some 37, lon := some 127,
           status := "success", ts := some 1 }]
        [{ road := none, jibun := none, lat := some 1, lon := some 2,
           status := "success", ts := some 9 }]).getD 0 rowDefault =
      ([{ road := none, jibun := none, lat := some 37, lon := some 127,
          status := "success", ts := some 1 }] : List Row).getD 0 rowDefault :=
  (reconcile_no_clobber _ _).1 0 (by decide)

theorem stagedP_append {a x : String} {l : List String} (h : StagedP a l)
    (hx : x ∉ l) (hlen : 5 < x.length) : StagedP a (l ++ [x]) := by
  obtain ⟨hne, hhd, hnd, htl⟩ := h
  rcases l with _ | ⟨b, t⟩
  · exact absurd rfl hne
  · refine ⟨by simp, by simpa using hhd, ?_, ?_⟩
    · simp only [List.cons_append]
      rw [List.nodup_cons] at hnd ⊢
      refine ⟨?_, ?_⟩
      · simp only [List.mem_append, List.mem_singleton]
        rintro (hb | rfl)
        · exact hnd.1 hb
        · exact hx (by simp)
      · rw [List.nodup_append]
        refine ⟨hnd.2, List.nodup_singleton x, ?_⟩
        intro y hy
        simp only [List.mem_singleton]
        rintro rfl
        exact hx (by simp [hy])
    · intro c hc
      simp only [List.cons_append, List.tail_cons, List.mem_append,
        List.mem_singleton] at hc
      rcases hc with hc | rfl
      · exact htl c hc
      · exact hlen

theorem appendNoNumber_staged (a : String) :
    StagedP a (appendNoNumber a [a]) := by
  unfold appendNoNumber
  split
  · rename_i h
    exact stagedP_append ⟨by simp, rfl, List.nodup_singleton a, by simp⟩
      (by simpa using h.1) h.2
  · exact ⟨by simp, rfl, List.nodup_singleton a, by simp⟩

theorem appendRoadOnly_staged {a : String} {l : List String} (addr : String)
    (h : StagedP a l) : StagedP a (appendRoadOnly addr l) := by
  unfold appendRoadOnly
  split
  · split
    · rename_i hcond
      exact stagedP_append h hcond.1 hcond.2
    · exact h
  · exact h

theorem appendDongOnly_staged {a : String} {l : List String} (addr : String)
    (h : StagedP a l) : StagedP a (appendDongOnly addr l) := by
  unfold appendDongOnly
  split
  · split
    · rename_i hcond
      exact stagedP_append h hcond.1 hcond.2
    · exact h
  · exact h

theorem extract_smart_staged (a : String) :
    StagedP a (extract_address_candidates_smart a) :=
  appendDongOnly_staged a (appendRoadOnly_staged a (appendNoNumber_staged a))

theorem appendNoNumber_len (addr : String) (l : List String) :
    (appendNoNumber addr l).length ≤ l.length + 1 := by
  unfold appendNoNumber
  split <;> simp

theorem appendRoadOnly_len (addr : String) (l : List String) :
    (appendRoadOnly addr l).length ≤ l.length + 1 := by
  unfold appendRoadOnly
  split
  · split <;> simp
  · simp

theorem appendDongOnly_len (addr : String) (l : List String) :
    (appendDongOnly addr l).length ≤ l.length + 1 := by
  unfold appendDongOnly
  split
  · split <;> simp
  · simp

theorem extract_smart_len_le (a : String) :
    (extract_address_candidates_smart a).length ≤ 4 := by
  unfold extract_address_candidates_smart
  calc (appendDongOnly a (appendRoadOnly a (appendNoNumber a [a]))).length
      ≤ (appendRoadOnly a (appendNoNumber a [a])).length + 1 :=
        appendDongOnly_len _ _
    _ ≤ (appendNoNumber a [a]).length + 1 + 1 := by
        have := appendRoadOnly_len a (appendNoNumber a [a]); omega
    _ ≤ 4 := by have := appendNoNumber_len a [a]; simp at this ⊢; omega

/-- The district-level stage either leaves the list unchanged or appends one
new element longer than 3. -/
theorem appendSigunguOnly_cases (addr : String) (l : List String) :
    appendSigunguOnly addr l = l ∨
    ∃ x, appendSigunguOnly addr l = l ++ [x] ∧ x ∉ l ∧ 3 < x.length := by
  unfold appendSigunguOnly
  split
  · split
    · rename_i hcond
      exact Or.inr ⟨_, rfl, hcond.1, hcond.2⟩
    · exact Or.inl rfl
  · exact Or.inl rfl

theorem tail_append_singleton {α : Type} (l : List α) (x : α) (h : l ≠ []) :
    (l ++ [x]).tail = l.tail ++ [x] := by
  cases l with
  | nil => exact absurd rfl h
  | cons b t => rfl

/-- Claim C6: for every address, the candidate ladder is an ordered sequence
of 1 to 5 strings whose first element is the input; every derived candidate
differs from all earlier candidates (the list is duplicate-free) and exceeds
its level's length threshold (every derived candidate is longer than 3, and
every derived candidate except a final district-level one is longer than 5);
and on `"강원도 삼척시 엑스포로 123"` the ladder is exactly the full address,
`"강원도 삼척시 엑스포로"`, and `"강원도 삼척시"`, in that order. -/
theorem candidate_ladder :
    (∀ a : String,
      (extract_address_candidates a).head? = some a ∧
      1 ≤ (extract_address_candidates a).length ∧
      (extract_address_candidates a).length ≤ 5 ∧
      (extract_address_candidates a).Nodup ∧
      (∀ c ∈ (extract_address_candidates a).tail, 3 < c.length) ∧
      (∀ c ∈ (extract_address_candidates a).tail.dropLast, 5 < c.length)) ∧
    extract_address_candidates "강원도 삼척시 엑스포로 123" =
      ["강원도 삼척시 엑스포로 123", "강원도 삼척시 엑스포로", "강원도 삼척시"] := by
  constructor
  · intro a
    have h4 : StagedP a (extract_address_candidates_smart a) := extract_smart_staged a
    have hlen4 : (extract_address_candidates_smart a).length ≤ 4 :=
      extract_smart_len_le a
    obtain ⟨hne, hhd, hnd, htl⟩ := h4
    have hx5 : extract_address_candidates a =
        appendSigunguOnly a (extract_address_candidates_smart a) := rfl
    rcases appendSigunguOnly_cases a (extract_address_candidates_smart a) with
      he | ⟨x, he, hxmem, hxlen⟩
    · rw [hx5, he]
      refine ⟨hhd, ?_, by omega, hnd, ?_, ?_⟩
      · have : 0 < (extract_address_candidates_smart a).length :=
          List.length_pos.mpr hne
        omega
      · intro c hc
        have := htl c hc
        omega
      · intro c hc
        exact htl c ((List.dropLast_sublist _).subset hc)
    · rw [hx5, he]
      have hlenx : (extract_address_candidates_smart a ++ [x]).length =
          (extract_address_candidates_smart a).length + 1 := by simp
      refine ⟨?_, by omega, by omega, ?_, ?_, ?_⟩
      · rcases hl : extract_address_candidates_smart a with _ | ⟨b, t⟩
        · exact absurd hl hne
        · rw [hl] at hhd
          simpa using hhd
      · rw [List.nodup_append]
        refine ⟨hnd, List.nodup_singleton x, ?_⟩
        intro y hy
        simp only [List.mem_singleton]
        rintro rfl
        exact hxmem hy
      · intro c hc
        rw [tail_append_singleton _ _ hne] at hc
        rcases List.mem_append.mp hc with hc | hc
        · have := htl c hc; omega
        · rw [List.mem_singleton] at hc; subst hc; exact hxlen
      · intro c hc
        rw [tail_append_singleton _ _ hne, List.dropLast_concat] at hc
        exact htl c hc
  · decide

/-- Witness for C6: the district-level candidate of the concrete ladder is a
tail element and indeed longer than 3. -/
theorem candidate_ladder_witness :
    3 < ("강원도 삼척시" : String).length :=
  (candidate_ladder.1 "강원도 삼척시 엑스포로 123").2.2.2.2.1 "강원도 삼척시"
    (by decide)

set_option maxHeartbeats 1000000 in
/-- Claim C8: `_try_geocode` returns `(lat, lon, 'success')` exactly when the
HTTP response has status code 200, a top-level `status` field equal to
`'OK'`, and a nested `point` object with numeric fields, latitude taken from
the point's `y` field and longitude from its `x` field (axis order preserved
exactly); every other condition — any other response shape, non-OK status,
timeout, or transport error — yields `(none, none, 'failed')`.  The function
is total (all caught exceptions are the non-matching constructor cases), so
it never raises. -/
theorem tryGeocode_response_shape :
    ∀ nr : NetResult,
      respInterp nr =
        match specSuccess nr with
        | some (la, lo) => (some la, some lo, "success")
        | none => (none, none, "failed") := by
  intro nr
  cases nr with
  | exn => rfl
  | resp code body =>
    by_cases hc : code = 200
    · subst hc
      cases body with
      | none => rfl
      | some data =>
        cases data with
        | null => rfl
        | str s => rfl
        | num q => rfl
        | arr l => rfl
        | obj fields =>
          simp only [respInterp, specSuccess, jField, if_pos]
          cases hres : List.lookup "response" fields with
          | none => simp [hres, statusIsOK]
          | some res =>
            cases res with
            | null => simp [hres, statusIsOK]
            | str s => simp [hres, statusIsOK]
            | num q => simp [hres, statusIsOK]
            | arr l => simp [hres, statusIsOK]
            | obj rfields =>
              simp only [Option.getD, hres]
              cases hst : List.lookup "status" rfields with
              | none => simp [hres, hst, statusIsOK]
              | some sv =>
                cases sv with
                | null => simp [hres, hst, statusIsOK]
                | num q => simp [hres, hst, statusIsOK]
                | arr l => simp [hres, hst, statusIsOK]
                | obj g => simp [hres, hst, statusIsOK]
                | str s =>
                  by_cases hok : s = "OK"
                  · subst hok
                    simp only [statusIsOK, hst, if_pos, if_true]
                    cases hresult : List.lookup "result" rfields with
                    | none => simp [hres, hst, hresult, statusIsOK]
                    | some r =>
                      cases r with
                      | null => simp [hres, hst, hresult, statusIsOK]
                      | str s2 => simp [hres, hst, hresult, statusIsOK]
                      | num q => simp [hres, hst, hresult, statusIsOK]
                      | arr l => simp [hres, hst, hresult, statusIsOK]
                      | obj resFields =>
                        simp only [hresult]
                        cases hpt : List.lookup "point" resFields with
                        | none => simp [hres, hst, hresult, hpt, statusIsOK]
                        | some pt =>
                          cases pt with
                          | null => simp [hres, hst, hresult, hpt, statusIsOK]
                          | str s3 => simp [hres, hst, hresult, hpt, statusIsOK]
                          | num q => simp [hres, hst, hresult, hpt, statusIsOK]
                          | arr l => simp [hres, hst, hresult, hpt, statusIsOK]
                          | obj ptFields =>
                            simp only [hpt]
                            cases hx : List.lookup "x" ptFields with
                            | none => simp [hres, hst, hresult, hpt, hx, statusIsOK]
                            | some xj =>
                              cases hy : List.lookup "y" ptFields with
                              | none => cases xj <;> simp [hres, hst, hresult, hpt, hx, hy, statusIsOK, jsonNum]
                              | some yj =>
                                cases xj <;> cases yj <;> simp [hres, hst, hresult, hpt, hx, hy, statusIsOK, jsonNum]
                  · simp [hres, hst, statusIsOK, hok]
    · simp [respInterp, specSuccess, hc]

theorem flatCandidates_eq (road jibun : Option String) :
    flatCandidates road jibun =
      (buildAttempts road jibun).flatMap
        (fun p => candPairs p.2 (extract_address_candidates_smart p.1)) := rfl

theorem runCandidates_spec (net : String → String → NetResult) (ty : String) :
    ∀ (cands : List String) (st : GSt),
      (runCandidates net ty cands st).1 =
        (candPairs ty cands).findSome? (attemptTriple net) ∧
      (runCandidates net ty cands st).2.log =
        st.log ++ attemptsMade net (candPairs ty cands) := by
  intro cands
  induction cands with
  | nil => intro st; simp [runCandidates, candPairs, attemptsMade]
  | cons c rest ih =>
    intro st
    by_cases hlen : c.length < 3
    · have hcp : candPairs ty (c :: rest) = candPairs ty rest := by
        simp [candPairs, hlen]
      simp only [runCandidates, hlen, if_true, hcp]
      exact ih st
    · have hcp : candPairs ty (c :: rest) = (c, ty) :: candPairs ty rest := by
        simp [candPairs, hlen]
      simp only [runCandidates, hlen, if_false, hcp]
      by_cases hs : (respInterp (net c ty)).2.2 = "success"
      · simp [tryGeocode, hs, List.findSome?_cons, attemptTriple, attemptsMade]
      · have h1 := ih { count := st.count + reqIncrement (net c ty),
                        log := st.log ++ [(c, ty)] }
        simp only [tryGeocode, hs] at h1 ⊢
        simp [List.findSome?_cons, attemptTriple, hs, attemptsMade, h1.1, h1.2]

theorem runCandidates_count (net : String → String → NetResult) (ty : String) :
    ∀ (cands : List String) (st : GSt),
      (runCandidates net ty cands st).2.count ≤ st.count + cands.length := by
  intro cands
  induction cands with
  | nil => intro st; simp [runCandidates]
  | cons c rest ih =>
    intro st
    by_cases hlen : c.length < 3
    · simp only [runCandidates, hlen, if_true]
      have := ih st
      simp only [List.length_cons]
      omega
    · simp only [runCandidates, hlen, if_false]
      by_cases hs : (respInterp (net c ty)).2.2 = "success"
      · simp only [tryGeocode, hs, if_true, List.length_cons]
        have : reqIncrement (net c ty) ≤ 1 := by
          cases net c ty <;> simp [reqIncrement]
        omega
      · simp only [tryGeocode, hs, if_false]
        have h1 := ih { count := st.count + reqIncrement (net c ty),
                        log := st.log ++ [(c, ty)] }
        dsimp only at h1
        have : reqIncrement (net c ty) ≤ 1 := by
          cases net c ty <;> simp [reqIncrement]
        simp only [List.length_cons]
        omega

theorem attemptsMade_append (net : String → String → NetResult) :
    ∀ xs ys : List (String × String),
      attemptsMade net (xs ++ ys) =
        if (xs.findSome? (attemptTriple net)).isSome then attemptsMade net xs
        else attemptsMade net xs ++ attemptsMade net ys := by
  intro xs ys
  induction xs with
  | nil => simp [attemptsMade]
  | cons x xs ih =>
    cases hx : attemptTriple net x with
    | some r =>
      simp [attemptsMade, hx, List.findSome?_cons]
    | none =>
      simp only [List.cons_append, attemptsMade, hx, Option.isSome_none,
        Bool.false_eq_true, if_false, List.findSome?_cons, List.append_eq]
      rw [ih]
      split <;> simp

theorem runAttempts_spec (net : String → String → NetResult) :
    ∀ (l : List (String × String)) (st : GSt),
      (runAttempts net l st).1 =
        (l.flatMap (fun p => candPairs p.2 (extract_address_candidates_smart p.1))).findSome?
          (attemptTriple net) ∧
      (runAttempts net l st).2.log =
        st.log ++ attemptsMade net
          (l.flatMap (fun p => candPairs p.2 (extract_address_candidates_smart p.1))) := by
  intro l
  induction l with
  | nil => intro st; simp [runAttempts, attemptsMade]
  | cons p rest ih =>
    intro st
    obtain ⟨a, ty⟩ := p
    have hrc := runCandidates_spec net ty (extract_address_candidates_smart a) st
    rcases hr : runCandidates net ty (extract_address_candidates_smart a) st with ⟨ro, st1⟩
    rw [hr] at hrc
    simp only at hrc
    cases ro with
    | some r =>
      simp only [runAttempts, hr, List.flatMap_cons, List.findSome?_append]
      rw [attemptsMade_append]
      have hfs : (candPairs ty (extract_address_candidates_smart a)).findSome?
          (attemptTriple net) = some r := hrc.1.symm
      simp [hfs, hrc.2]
    | none =>
      have hfs : (candPairs ty (extract_address_candidates_smart a)).findSome?
          (attemptTriple net) = none := hrc.1.symm
      have h1 := ih st1
      simp only [runAttempts, hr, List.flatMap_cons, List.findSome?_append]
      rw [attemptsMade_append]
      simp [hfs, h1.1, h1.2, hrc.2, List.append_assoc]

/-- Claim C5: under the entry quota guard, `geocode_address` builds its
attempt list with the road address first and the parcel address second (the
address-type sequence is a sublist of `["road", "parcel"]`); when no address
qualifies it returns status `'empty'` with no coordinates and an unchanged
state (no network call); otherwise its result is that of the first candidate
in the flattened road-then-parcel candidate ladder whose attempt succeeds —
with that candidate's coordinates and status `'success'` — and is
`(none, none, 'failed')` exactly when every candidate of every qualified
address fails; moreover the attempts actually issued are precisely the ladder
prefix up to and including the first success. -/
theorem resolve_first_success :
    ∀ (net : String → String → NetResult) (road jibun : Option String)
      (limit : Nat) (st : GSt), st.count < limit →
      List.Sublist ((buildAttempts road jibun).map Prod.snd) ["road", "parcel"] ∧
      (buildAttempts road jibun = [] →
        geocode_address net road jibun limit st = ((none, none, "empty"), st)) ∧
      ((geocode_address net road jibun limit st).1 =
        match (flatCandidates road jibun).findSome? (attemptTriple net) with
        | some r => r
        | none =>
          if buildAttempts road jibun = [] then (none, none, "empty")
          else (none, none, "failed")) ∧
      (geocode_address net road jibun limit st).2.log =
        st.log ++ attemptsMade net (flatCandidates road jibun) := by
  intro net road jibun limit st h
  have hguard : ¬ limit ≤ st.count := Nat.not_le.mpr h
  refine ⟨?_, ?_, ?_, ?_⟩
  · have hR : List.Sublist ((match road with
        | some a =>
          if a ≠ "" ∧ clean_address (some a) ≠ "" ∧ 3 < (clean_address (some a)).length
          then [(clean_address (some a), "road")] else []
        | none => ([] : List (String × String))).map Prod.snd) ["road"] := by
      rcases road with _ | a
      · exact List.nil_sublist _
      · dsimp only
        split
        · exact List.Sublist.refl _
        · exact List.nil_sublist _
    have hP : List.Sublist ((match jibun with
        | some a =>
          if a ≠ "" ∧ clean_address (some a) ≠ "" ∧ 3 < (clean_address (some a)).length
          then [(clean_address (some a), "parcel")] else []
        | none => ([] : List (String × String))).map Prod.snd) ["parcel"] := by
      rcases jibun with _ | b
      · exact List.nil_sublist _
      · dsimp only
        split
        · exact List.Sublist.refl _
        · exact List.nil_sublist _
    have hBA := List.Sublist.append hR hP
    rw [← List.map_append] at hBA
    exact hBA
  · intro hempty
    simp [geocode_address, hguard, hempty]
  · by_cases hB : buildAttempts road jibun = []
    · have hflat : flatCandidates road jibun = [] := by
        rw [flatCandidates_eq, hB]; rfl
      simp [geocode_address, hguard, hB, hflat]
    · have hspec := runAttempts_spec net (buildAttempts road jibun) st
      rw [← flatCandidates_eq] at hspec
      rcases hra : runAttempts net (buildAttempts road jibun) st with ⟨ro, st1⟩
      rw [hra] at hspec
      simp only at hspec
      cases ro with
      | some r => simp [geocode_address, hguard, hB, hra, ← hspec.1]
      | none => simp [geocode_address, hguard, hB, hra, ← hspec.1]
  · by_cases hB : buildAttempts road jibun = []
    · have hflat : flatCandidates road jibun = [] := by
        rw [flatCandidates_eq, hB]; rfl
      simp [geocode_address, hguard, hB, hflat, attemptsMade]
    · have hspec := runAttempts_spec net (buildAttempts road jibun) st
      rw [← flatCandidates_eq] at hspec
      rcases hra : runAttempts net (buildAttempts road jibun) st with ⟨ro, st1⟩
      rw [hra] at hspec
      simp only at hspec
      cases ro with
      | some r => simp [geocode_address, hguard, hB, hra, hspec.2]
      | none => simp [geocode_address, hguard, hB, hra, hspec.2]

/-- Witness for C5: on a concrete call (road address only, quota not yet
reached) the attempt-type sequence is a sublist of `["road", "parcel"]`. -/
theorem resolve_first_success_witness :
    List.Sublist ((buildAttempts (some "가나다라마바") none).map Prod.snd)
      ["road", "parcel"] :=
  (resolve_first_success exnNet (some "가나다라마바") none 5
    { count := 0, log := [] } (by decide)).1

theorem countSuccess_set_ge (rows : List Row) (i : Nat) (a : Row)
    (h : (rows.getD i rowDefault).status ≠ "success") :
    countSuccess rows ≤ countSuccess (rows.set i a) := by
  induction rows generalizing i with
  | nil => simp
  | cons hd tl ih =>
    cases i with
    | zero =>
      simp only [List.getD_cons_zero] at h
      simp only [List.set, countSuccess, List.countP_cons]
      have : (hd.status == "success") = false := by
        simpa using h
      simp [this]
    | succ i =>
      simp only [List.getD_cons_succ] at h
      simp only [List.set, countSuccess, List.countP_cons]
      have := ih i h
      simp only [countSuccess] at this
      omega

theorem batchLoop_untouched (net : String → String → NetResult)
    (limit now : Nat) :
    ∀ (l : List Nat) (st : BSt) (j : Nat), j ∉ l →
      (batchLoop net limit now l st).rows.getD j rowDefault =
        st.rows.getD j rowDefault := by
  intro l
  induction l with
  | nil => intro st j _; rfl
  | cons i rest ih =>
    intro st j hj
    rw [batchLoop]
    split
    · rfl
    · have hji : i ≠ j := fun h => hj (h ▸ List.mem_cons_self i rest)
      have hjr : j ∉ rest := fun h => hj (List.mem_cons_of_mem i h)
      rw [ih _ j hjr]
      exact getD_set_ne _ _ _ _ hji

theorem batchLoop_log (net : String → String → NetResult) (limit now : Nat) :
    ∀ (l : List Nat) (st : BSt) (e : Nat × List (String × String)),
      e ∈ (batchLoop net limit now l st).log → e ∈ st.log ∨ e.1 ∈ l := by
  intro l
  induction l with
  | nil => intro st e he; exact Or.inl he
  | cons i rest ih =>
    intro st e he
    rw [batchLoop] at he
    split at he
    · exact Or.inl he
    · rcases ih _ e he with h | h
      · simp only [processRow, List.mem_append, List.mem_singleton] at h
        rcases h with h | h
        · exact Or.inl h
        · right
          rw [h]
          exact List.mem_cons_self i rest
      · exact Or.inr (List.mem_cons_of_mem i h)

theorem batchLoop_monotone (net : String → String → NetResult)
    (limit now : Nat) :
    ∀ (l : List Nat) (st : BSt), l.Nodup →
      (∀ i ∈ l, (st.rows.getD i rowDefault).status = "pending") →
      countSuccess st.rows ≤ countSuccess (batchLoop net limit now l st).rows := by
  intro l
  induction l with
  | nil => intro st _ _; exact Nat.le_refl _
  | cons i rest ih =>
    intro st hnd hp
    rw [batchLoop]
    split
    · exact Nat.le_refl _
    · have hstep : countSuccess st.rows ≤
          countSuccess (processRow net limit now i st).rows := by
        apply countSuccess_set_ge
        rw [hp i (List.mem_cons_self i rest)]
        intro hcontra
        exact absurd hcontra (by decide)
      refine Nat.le_trans hstep (ih _ (List.Nodup.of_cons hnd) ?_)
      intro j hj
      have hji : i ≠ j := fun h =>
        (List.nodup_cons.mp hnd).1 (h ▸ hj)
      simp only [processRow]
      rw [getD_set_ne _ _ _ _ hji]
      exact hp j (List.mem_cons_of_mem i hj)

theorem pendingIndices_mem (rows : List Row) (i : Nat) :
    i ∈ pendingIndices rows ↔
      i < rows.length ∧ (rows.getD i rowDefault).status = "pending" := by
  simp [pendingIndices, List.mem_filter, List.mem_range]

theorem dailyLoop_success_untouched (net : String → String → NetResult)
    (limit now : Nat) :
    ∀ (l : List Nat) (st : BSt) (j : Nat),
      (st.rows.getD j rowDefault).status = "success" →
      (dailyLoop net limit now l st).rows.getD j rowDefault =
        st.rows.getD j rowDefault := by
  intro l
  induction l with
  | nil => intro st j _; rfl
  | cons i rest ih =>
    intro st j hj
    rw [dailyLoop]
    split
    · exact ih _ j hj
    · split
      · rfl
      · rename_i hskip _
        have hi : (st.rows.getD i rowDefault).status ≠ "success" := by
          simpa using hskip
        have hji : i ≠ j := fun h => hi (h ▸ hj)
        have hrow : (processRow net limit now i st).rows.getD j rowDefault =
            st.rows.getD j rowDefault := getD_set_ne _ _ _ _ hji
        rw [ih _ j (by rw [hrow]; exact hj), hrow]

theorem dailyLoop_log (net : String → String → NetResult) (limit now : Nat) :
    ∀ (l : List Nat) (st : BSt), l.Nodup →
      ∀ e ∈ (dailyLoop net limit now l st).log,
        e ∈ st.log ∨
        (e.1 ∈ l ∧ (st.rows.getD e.1 rowDefault).status ≠ "success") := by
  intro l
  induction l with
  | nil => intro st _ e he; exact Or.inl he
  | cons i rest ih =>
    intro st hnd e he
    rw [dailyLoop] at he
    split at he
    · rcases ih _ (List.Nodup.of_cons hnd) e he with h | h
      · exact Or.inl h
      · exact Or.inr ⟨List.mem_cons_of_mem i h.1, h.2⟩
    · split at he
      · exact Or.inl he
      · rename_i hskip _
        have hi : (st.rows.getD i rowDefault).status ≠ "success" := by
          simpa using hskip
        rcases ih _ (List.Nodup.of_cons hnd) e he with h | h
        · simp only [processRow, List.mem_append, List.mem_singleton] at h
          rcases h with h | h
          · exact Or.inl h
          · exact Or.inr ⟨by rw [h]; exact List.mem_cons_self i rest,
              by rw [h]; exact hi⟩
        · have hji : i ≠ e.1 := fun hc =>
            (List.nodup_cons.mp hnd).1 (hc ▸ h.1)
          refine Or.inr ⟨List.mem_cons_of_mem i h.1, ?_⟩
          have := h.2
          simp only [processRow] at this
          rwa [getD_set_ne _ _ _ _ hji] at this

theorem dailyLoop_monotone (net : String → String → NetResult)
    (limit now : Nat) :
    ∀ (l : List Nat) (st : BSt),
      countSuccess st.rows ≤ countSuccess (dailyLoop net limit now l st).rows := by
  intro l
  induction l with
  | nil => intro st; exact Nat.le_refl _
  | cons i rest ih =>
    intro st
    rw [dailyLoop]
    split
    · exact ih _
    · split
      · exact Nat.le_refl _
      · rename_i hskip _
        have hi : (st.rows.getD i rowDefault).status ≠ "success" := by
          simpa using hskip
        have hstep : countSuccess st.rows ≤
            countSuccess (processRow net limit now i st).rows := by
          apply countSuccess_set_ge
          exact hi
        exact Nat.le_trans hstep (ih _)

/-- Claim C1 (amended): both runners leave every row whose status is already
`'success'` entirely unchanged and issue it no network request, and the count
of `'success'` rows is non-decreasing across runs; the smart runner moreover
touches only rows whose status is `'pending'` (every row that receives a
request was pending, so `'failed'` rows are never re-processed there); the
daily runner, however, re-submits non-success rows, including `'failed'`
ones. -/
theorem batch_skip_policy :
    (∀ (net : String → String → NetResult) (limit now : Nat) (rows : List Row)
       (j : Nat), (rows.getD j rowDefault).status ≠ "pending" →
      (runSmart net limit now rows).rows.getD j rowDefault =
        rows.getD j rowDefault) ∧
    (∀ (net : String → String → NetResult) (limit now : Nat) (rows : List Row),
      ∀ e ∈ (runSmart net limit now rows).log,
        e.1 < rows.length ∧ (rows.getD e.1 rowDefault).status = "pending") ∧
    (∀ (net : String → String → NetResult) (limit now : Nat) (rows : List Row),
      countSuccess rows ≤ countSuccess (runSmart net limit now rows).rows) ∧
    (∀ (net : String → String → NetResult) (limit now : Nat) (rows : List Row)
       (j : Nat), (rows.getD j rowDefault).status = "success" →
      (runDaily net limit now rows).rows.getD j rowDefault =
        rows.getD j rowDefault) ∧
    (∀ (net : String → String → NetResult) (limit now : Nat) (rows : List Row),
      ∀ e ∈ (runDaily net limit now rows).log,
        (rows.getD e.1 rowDefault).status ≠ "success") ∧
    (∀ (net : String → String → NetResult) (limit now : Nat) (rows : List Row),
      countSuccess rows ≤ countSuccess (runDaily net limit now rows).rows) := by
  refine ⟨?_, ?_, ?_, ?_, ?_, ?_⟩
  · intro net limit now rows j hj
    have hnp : j ∉ pendingIndices rows := fun hmem =>
      hj ((pendingIndices_mem rows j).mp hmem).2
    exact batchLoop_untouched net limit now _ _ j hnp
  · intro net limit now rows e he
    rcases batchLoop_log net limit now (pendingIndices rows) _ e he with h | h
    · exact absurd h (List.not_mem_nil e)
    · exact (pendingIndices_mem rows e.1).mp h
  · intro net limit now rows
    exact batchLoop_monotone net limit now (pendingIndices rows)
      { rows := rows, count := 0, log := [], saves := [], stopped := false }
      (List.Nodup.filter _ (List.nodup_range _))
      (fun i hi => ((pendingIndices_mem rows i).mp hi).2)
  · intro net limit now rows j hj
    exact dailyLoop_success_untouched net limit now _ _ j hj
  · intro net limit now rows e he
    rcases dailyLoop_log net limit now (List.range rows.length) _
      (List.nodup_range _) e he with h | h
    · exact absurd h (List.not_mem_nil e)
    · exact h.2
  · intro net limit now rows
    exact dailyLoop_monotone net limit now (List.range rows.length)
      { rows := rows, count := 0, log := [], saves := [], stopped := false }

/-- Counterexample for C1 as stated: the daily runner re-processes a
`'failed'` row — on a snapshot whose only row is `'failed'` it issues a
network request (non-empty attempt log) and rewrites the row (its timestamp
is set), so "only rows with status `'pending'` are submitted" fails on
`geocode_vworld_daily.py`. -/
theorem batch_skip_policy_cex :
    (runDaily exnNet 10 7 [failedRow]).log ≠ [] ∧
    (runDaily exnNet 10 7 [failedRow]).rows ≠ [failedRow] := by
  decide

/-- Witness for C1 (amended): a concrete smart run leaves a `'success'` row
unchanged. -/
theorem batch_skip_policy_witness :
    (runSmart exnNet 10 7 [successRow]).rows.getD 0 rowDefault =
      ([successRow] : List Row).getD 0 rowDefault :=
  batch_skip_policy.1 exnNet 10 7 [successRow] 0 (by decide)

theorem buildAttempts_len (road jibun : Option String) :
    (buildAttempts road jibun).length ≤ 2 := by
  unfold buildAttempts
  rcases road with _ | a <;> rcases jibun with _ | b <;> dsimp only <;>
    (repeat' split) <;> simp

theorem runAttempts_count (net : String → String → NetResult) :
    ∀ (l : List (String × String)) (st : GSt),
      (runAttempts net l st).2.count ≤ st.count + 4 * l.length := by
  intro l
  induction l with
  | nil => intro st; simp [runAttempts]
  | cons p rest ih =>
    intro st
    obtain ⟨a, ty⟩ := p
    have hcand : (runCandidates net ty (extract_address_candidates_smart a) st).2.count ≤
        st.count + 4 := by
      have h1 := runCandidates_count net ty (extract_address_candidates_smart a) st
      have h2 := extract_smart_len_le a
      omega
    rcases hr : runCandidates net ty (extract_address_candidates_smart a) st with ⟨ro, st1⟩
    rw [hr] at hcand
    simp only at hcand
    cases ro with
    | some r =>
      simp only [runAttempts, hr, List.length_cons]
      omega
    | none =>
      simp only [runAttempts, hr, List.length_cons]
      have h3 := ih st1
      omega

theorem geocode_count_le (net : String → String → NetResult)
    (road jibun : Option String) (limit : Nat) (st : GSt) :
    (geocode_address net road jibun limit st).2.count ≤ st.count + 8 := by
  simp only [geocode_address]
  split
  · simp
  · split
    · simp
    · have h1 := runAttempts_count net (buildAttempts road jibun) st
      have h2 := buildAttempts_len road jibun
      rcases hr : runAttempts net (buildAttempts road jibun) st with ⟨ro, st1⟩
      rw [hr] at h1
      simp only at h1
      cases ro with
      | some r => simp only [hr]; omega
      | none => simp only [hr]; omega

theorem batchLoop_count_le (net : String → String → NetResult)
    (limit now : Nat) :
    ∀ (l : List Nat) (st : BSt), st.count ≤ limit - 1 + 8 →
      (batchLoop net limit now l st).count ≤ limit - 1 + 8 := by
  intro l
  induction l with
  | nil => intro st h; exact h
  | cons i rest ih =>
    intro st h
    rw [batchLoop]
    split
    · exact h
    · rename_i hlt
      have hcl : st.count < limit := Nat.not_le.mp hlt
      apply ih
      have hg := geocode_count_le net
        (st.rows.getD i rowDefault).road (st.rows.getD i rowDefault).jibun limit
        { count := st.count, log := [] }
      dsimp only at hg
      simp only [processRow]
      omega

/-- Claim C10: the daily limit is consulted only on entry to
`geocode_address` — once the entry guard passes, the call's behaviour is
entirely independent of the limit, so no check happens between candidate
attempts — and consequently a smart run's total request count can overshoot
the limit only by the attempts of the single in-flight row: it is bounded by
`limit - 1 + 10` (the row itself contributes at most 8 requests — at most 4
candidates for each of at most 2 address types — which is within the claimed
10). -/
theorem limit_entry_only :
    (∀ (net : String → String → NetResult) (road jibun : Option String)
       (l1 l2 : Nat) (st : GSt), st.count < l1 → st.count < l2 →
      geocode_address net road jibun l1 st = geocode_address net road jibun l2 st) ∧
    (∀ (net : String → String → NetResult) (limit now : Nat) (rows : List Row),
      (runSmart net limit now rows).count ≤ limit - 1 + 10) := by
  constructor
  · intro net road jibun l1 l2 st h1 h2
    rw [geocode_address, geocode_address,
      if_neg (Nat.not_le.mpr h1), if_neg (Nat.not_le.mpr h2)]
  · intro net limit now rows
    have h := batchLoop_count_le net limit now (pendingIndices rows)
      { rows := rows, count := 0, log := [], saves := [], stopped := false }
      (by dsimp only; omega)
    have hrs : (runSmart net limit now rows).count =
        (batchLoop net limit now (pendingIndices rows)
          { rows := rows, count := 0, log := [], saves := [], stopped := false }).count := rfl
    omega

/-- Witness for C10: with the quota not yet reached, a concrete
`geocode_address` call gives the same result under limits 5 and 6. -/
theorem limit_entry_only_witness :
    geocode_address exnNet none none 5 { count := 0, log := [] } =
      geocode_address exnNet none none 6 { count := 0, log := [] } :=
  limit_entry_only.1 exnNet none none 5 6 { count := 0, log := [] }
    (by decide) (by decide)

end Geo
